import Mathlib

/-!
# Verification of the telemetry anomaly-detection engine

This file is a shallow embedding of `services/anomalyDetector.js` (the
`AnomalyDetector` class together with its static configuration tables) and a
development of its specification-level properties.

Modelling conventions, fixed once here:

* JS numbers are modelled as exact rationals `ℚ`.  Every comparison and every
  arithmetic operation appearing in the source on the inputs treated in this
  file is exact at this precision, so the rational model agrees with the
  double-precision source on all decidable comparisons stated below.  The one
  caveat, `WIN * 0.8`, evaluates to exactly `16` in double arithmetic, and is
  embedded as the integer `16`.
* A record field holding a value that is missing, non-numeric, or `NaN` is
  modelled as `Option.none` (the source skips such values at every use site;
  for `_computeStats` the source filter `typeof v === 'number' && !isNaN(v)`
  additionally admits infinities, which `ℚ` cannot represent — a dedicated
  IEEE-style model `JNum` and `computeStatsE` below handle exactly that
  corner).
* `Math.sqrt` produces irrational numbers, so wherever the source stores or
  compares a square root (`std`, a z-score, a sigma deviation) the embedding
  carries the exact *square* of that quantity (`variance`, `zScoreSq`,
  `deviationSigmaSq`) and performs the source's comparisons in squared form:
  for nonnegative `x` and `c`, `x > c ↔ x² > c²`, so `z > 3` is embedded as
  `zSq > 9`, `z > 5` as `zSq > 25`, and so on.  The source's rounded report
  fields `zScore`/`deviationSigma` (`+z.toFixed(2)`) are therefore represented
  by their exact squares rather than by a rounded root.
* The human-readable `description` string of each anomaly is a pure formatting
  artefact of the other stored fields and is not carried by the embedding.
* JS object iteration (`Object.entries(this.stats)`) follows key insertion
  order; every state reachable through the class constructor inserts stats
  keys in the order of the static redline table, so the embedding models the
  stats dictionary as a function and iterates it in table order.
-/

namespace RocketAnomaly

/-- `Math.abs` on the rational model. -/
def jsAbs (x : ℚ) : ℚ := if x < 0 then -x else x

/-- Binary `Math.max` on the rational model (its arguments are never NaN at
the one call site, `_clusterAnomalies`). -/
def jsMax (a b : ℚ) : ℚ := if a < b then b else a

/-- `x ** 2` of the source. -/
def sq (x : ℚ) : ℚ := x * x

/-- `+v.toFixed(2)`: round to two decimal places, ties away from zero for
positive arguments ("pick the larger n" in the ECMA specification of
`toFixed`). -/
def toFixed2 (x : ℚ) : ℚ := ((x * 100 + 1/2).floor : ℚ) / 100

/-- One row of the static `REDLINE_LIMITS` table. -/
structure RLimit where
  min : ℚ
  max : ℚ
  unit : String
  label : String
deriving DecidableEq, Repr

/-- The static redline table of `anomalyDetector.js`, in source order. -/
def REDLINE_LIMITS : List (String × RLimit) :=
  [ ("velocity_ms",           ⟨-50,   8200,  "m/s",   "Velocity"⟩),
    ("altitude_km",           ⟨-1,    250,   "km",    "Altitude"⟩),
    ("velocity_y_ms",         ⟨-200,  2000,  "m/s",   "Vertical Velocity"⟩),
    ("velocity_x_ms",         ⟨-50,   8200,  "m/s",   "Horizontal Velocity"⟩),
    ("acceleration_ms2",      ⟨0,     40,    "m/s2",  "Acceleration"⟩),
    ("downrange_distance_km", ⟨-1,    1500,  "km",    "Downrange Distance"⟩),
    ("angle_deg",             ⟨-5,    92,    "deg",   "Flight Angle"⟩),
    ("dynamic_pressure_pa",   ⟨0,     35000, "Pa",    "Dynamic Pressure (Q)"⟩),
    ("jerk_ms3",              ⟨-25,   25,    "m/s3",  "Jerk"⟩),
    ("altitude_rate_kms",     ⟨-1/2,  5/2,   "km/s",  "Altitude Rate"⟩),
    ("velocity_rate_ms2",     ⟨-30,   45,    "m/s2",  "Velocity Rate"⟩),
    ("angle_rate_degs",       ⟨-5,    1,     "deg/s", "Angle Rate"⟩),
    ("mach_number",           ⟨0,     25,    "",      "Mach Number"⟩) ]

/-- The monitored parameter names: `Object.keys(REDLINE_LIMITS)`. -/
def REDLINE_PARAMS : List String := REDLINE_LIMITS.map (·.1)

/-- `REDLINE_LIMITS[param]` as an optional lookup (`lim?` in the source). -/
def lookupLimit (p : String) : Option RLimit :=
  (REDLINE_LIMITS.find? (fun e => e.1 == p)).map (·.2)

/-- The static `MISSION_EVENTS` marker table. -/
def MISSION_EVENTS : List (String × ℚ) :=
  [ ("maxq", 54), ("throttle_down_start", 48), ("throttle_down_end", 68),
    ("meco", 145), ("ses1", 156) ]

/-- One input record: a `mission_time_s` field plus a mapping from parameter
name to value.  `none` stands for a missing, non-numeric, or NaN entry. -/
structure DataRecord where
  mission_time_s : Option ℚ
  get : String → Option ℚ

/-- One per-parameter baseline entry of `this.stats`.  The source stores
`std = Math.sqrt(variance)`; the embedding stores `variance = std²` exactly
(see the header note), so the source's test `s.std === 0` is `variance = 0`
here. -/
structure Stat where
  mean : ℚ
  variance : ℚ
  min : ℚ
  max : ℚ
deriving DecidableEq, Repr

/-- One anomaly object.  The source builds loosely-typed objects whose field
set depends on the detector; fields not set by a detector are `none` here.
`zScoreSq` and `deviationSigmaSq` carry the squares of the source's `zScore`
and `deviationSigma` (see the header note). -/
structure Anomaly where
  type : String
  severity : String
  parameter : String
  paramLabel : String
  value : ℚ
  unit : String
  missionTime : ℚ
  index : ℕ
  expected : Option ℚ := none
  zScoreSq : Option ℚ := none
  previousValue : Option ℚ := none
  rateOfChange : Option ℚ := none
  redlineLimit : Option ℚ := none
  exceedance : Option ℚ := none
  direction : Option String := none
  percentOver : Option ℚ := none
  deviationSigmaSq : Option ℚ := none
deriving DecidableEq, Repr

/-- One clustered event. -/
structure Event where
  id : String
  anomalies : List Anomaly
  startTime : ℚ
  endTime : ℚ
  severity : String
  affectedParams : List String
  anomalyTypes : List String
  count : ℕ
deriving DecidableEq, Repr

/-- The mutable state of one `AnomalyDetector` instance: the constructor sets
`anomalies := []`, `stats := {}`; `events` is `undefined` (`none`) until
`_clusterAnomalies` first runs. -/
structure DState where
  data : List DataRecord
  anomalies : List Anomaly
  stats : String → Option Stat
  events : Option (List Event)

/-- `new AnomalyDetector(data)`. -/
def initState (data : List DataRecord) : DState :=
  { data := data, anomalies := [], stats := fun _ => none, events := none }

/-- The working-set filter of `detectAll`:
`typeof d.mission_time_s === 'number' && d.mission_time_s >= 0`. -/
def validTime (r : DataRecord) : Bool :=
  match r.mission_time_s with
  | some t => decide (0 ≤ t)
  | none => false

/-- `data.filter(...)` in `detectAll`. -/
def workingSet (data : List DataRecord) : List DataRecord := data.filter validTime

/-- The mission time of a working-set record (always present there). -/
def timeOf (r : DataRecord) : ℚ := r.mission_time_s.getD 0

/-- `data.map(d => d[param]).filter(v => typeof v === 'number' && !isNaN(v))`
in `_computeStats` (see the header note on infinities and `computeStatsE`). -/
def paramValues (data : List DataRecord) (p : String) : List ℚ :=
  data.filterMap (fun r => r.get p)

/-- Minimum of a nonempty list (`Math.min(...values)`). -/
def listMin : List ℚ → ℚ
  | [] => 0
  | v :: t => t.foldl min v

/-- Maximum of a nonempty list (`Math.max(...values)`). -/
def listMax : List ℚ → ℚ
  | [] => 0
  | v :: t => t.foldl max v

/-- The `{mean, std, min, max}` entry `_computeStats` builds from the valid
values of one parameter (with `variance` in place of `std`, see above). -/
def statOfValues (vs : List ℚ) : Stat :=
  let sum := vs.foldl (· + ·) (0 : ℚ)
  let mean := sum / (vs.length : ℚ)
  let variance := (vs.foldl (fun a v => a + sq (v - mean)) (0 : ℚ)) / (vs.length : ℚ)
  { mean := mean, variance := variance, min := listMin vs, max := listMax vs }

/-- `_computeStats(data)`: for each monitored parameter with at least one
valid value, write its baseline entry into the stats dictionary; parameters
with no valid values are skipped (`continue`), leaving any previous entry. -/
def computeStats (stats : String → Option Stat) (data : List DataRecord) :
    String → Option Stat :=
  REDLINE_PARAMS.foldl
    (fun st p =>
      if (paramValues data p).isEmpty then st
      else Function.update st p (some (statOfValues (paramValues data p))))
    stats

/-- `Object.entries(this.stats)`, in redline-table key order (see the header
note on iteration order). -/
def statEntries (stats : String → Option Stat) : List (String × Stat) :=
  REDLINE_PARAMS.filterMap (fun p => (stats p).map (fun s => (p, s)))

/-- Severity tiering of `_detectZScoreAnomalies`, in squared form:
`z > 5 ? CRITICAL : z > 4 ? WARNING : CAUTION`. -/
def zSeverity (zSq : ℚ) : String :=
  if zSq > 25 then "CRITICAL" else if zSq > 16 then "WARNING" else "CAUTION"

/-- The per-sample body of the inner loop of `_detectZScoreAnomalies`. -/
def zCandidate (p : String) (s : Stat) (ir : ℕ × DataRecord) : Option Anomaly :=
  let lim := lookupLimit p
  match ir.2.get p with
  | none => none
  | some v =>
    let zSq := sq (v - s.mean) / s.variance
    if zSq > 9 then
      some
        { type := "Z-Score Outlier"
          severity := zSeverity zSq
          parameter := p
          paramLabel := ((lim.map (·.label)).getD p)
          value := toFixed2 v
          expected := some (toFixed2 s.mean)
          zScoreSq := some zSq
          unit := ((lim.map (·.unit)).getD "")
          missionTime := timeOf ir.2
          index := ir.1 }
    else none

/-- `_detectZScoreAnomalies(data)` (`Z = 3.0`, embedded as `zSq > 9`). -/
def detectZScoreAnomalies (stats : String → Option Stat)
    (data : List DataRecord) : List Anomaly :=
  (statEntries stats).flatMap (fun e =>
    if e.2.variance = 0 then []
    else data.enum.filterMap (zCandidate e.1 e.2))

/-- The list `rocs` of `_detectRateOfChange`: absolute steps over consecutive
pairs whose two endpoints are both numeric. -/
def rocList (data : List DataRecord) (p : String) : List ℚ :=
  (data.zip data.tail).filterMap (fun ab =>
    match ab.1.get p, ab.2.get p with
    | some a, some b => some (jsAbs (b - a))
    | _, _ => none)

/-- The per-pair body of the second loop of `_detectRateOfChange`. -/
def rocCandidate (p : String) (threshold : ℚ)
    (kab : ℕ × (DataRecord × DataRecord)) : Option Anomaly :=
  let lim := lookupLimit p
  match kab.2.1.get p, kab.2.2.get p with
  | some a, some b =>
    let roc := jsAbs (b - a)
    if roc > threshold then
      some
        { type := "Rapid Change"
          severity :=
            if roc > threshold * 3 then "CRITICAL"
            else if roc > threshold * 2 then "WARNING" else "CAUTION"
          parameter := p
          paramLabel := ((lim.map (·.label)).getD p)
          value := toFixed2 b
          previousValue := some (toFixed2 a)
          rateOfChange := some (toFixed2 roc)
          unit := ((lim.map (·.unit)).getD "")
          missionTime := timeOf kab.2.2
          index := kab.1 + 1 }
    else none
  | _, _ => none

/-- `_detectRateOfChange(data)` (`MULT = 5`). -/
def detectRateOfChange (stats : String → Option Stat)
    (data : List DataRecord) : List Anomaly :=
  (statEntries stats).flatMap (fun e =>
    let rocs := rocList data e.1
    if rocs.isEmpty then []
    else
      let avg := rocs.foldl (· + ·) (0 : ℚ) / (rocs.length : ℚ)
      let threshold := avg * 5
      if threshold = 0 then []
      else ((data.zip data.tail).enum).filterMap (rocCandidate e.1 threshold))

/-- The anomaly `_detectRedlineViolations` pushes for one violating sample.
`den` embeds `viol.limit || 1`: the number `0` is falsy in JS, so a zero
limit makes the divisor `Math.abs(1)`. -/
def mkRedline (p : String) (lim : RLimit) (i : ℕ) (r : DataRecord) (v : ℚ)
    (dir : String) (exc : ℚ) (limit : ℚ) : Anomaly :=
  let den := if limit = 0 then (1 : ℚ) else limit
  let pct := (exc / jsAbs den) * 100
  { type := "Redline Violation"
    severity :=
      if pct > 10 then "CRITICAL" else if pct > 5 then "WARNING" else "CAUTION"
    parameter := p
    paramLabel := lim.label
    value := toFixed2 v
    redlineLimit := some limit
    exceedance := some exc
    direction := some dir
    percentOver := some (toFixed2 pct)
    unit := lim.unit
    missionTime := timeOf r
    index := i }

/-- The per-sample body of `_detectRedlineViolations`. -/
def redlineCandidate (p : String) (lim : RLimit) (ir : ℕ × DataRecord) :
    Option Anomaly :=
  match ir.2.get p with
  | none => none
  | some v =>
    if v > lim.max then
      some (mkRedline p lim ir.1 ir.2 v "HIGH" (toFixed2 (v - lim.max)) lim.max)
    else if v < lim.min then
      some (mkRedline p lim ir.1 ir.2 v "LOW" (toFixed2 (lim.min - v)) lim.min)
    else none

/-- `_detectRedlineViolations(data)`. -/
def detectRedlineViolations (data : List DataRecord) : List Anomaly :=
  REDLINE_LIMITS.flatMap (fun pl => data.enum.filterMap (redlineCandidate pl.1 pl.2))

/-- The sliding window of `_detectSustainedDeviations` at index `i`:
`data.slice(i - WIN, i).map(d => d[param]).filter(v => typeof v === 'number')`
(`WIN = 20`). -/
def sustainedWindow (data : List DataRecord) (p : String) (i : ℕ) : List ℚ :=
  ((data.take i).drop (i - 20)).filterMap (fun r => r.get p)

/-- The anomaly `_detectSustainedDeviations` pushes for a deviating window. -/
def mkSustained (p : String) (i : ℕ) (r : DataRecord) (wm : ℚ) (mean : ℚ)
    (devSq : ℚ) : Anomaly :=
  let lim := lookupLimit p
  { type := "Sustained Deviation"
    severity :=
      if devSq > 16 then "CRITICAL" else if devSq > 9 then "WARNING" else "CAUTION"
    parameter := p
    paramLabel := ((lim.map (·.label)).getD p)
    value := toFixed2 wm
    expected := some (toFixed2 mean)
    deviationSigmaSq := some devSq
    unit := ((lim.map (·.unit)).getD "")
    missionTime := timeOf r
    index := i }

/-- The duplicate test of `_detectSustainedDeviations`: an already-recorded
anomaly of the same type and parameter whose index is within `WIN = 20`. -/
def sustainedDup (acc : List Anomaly) (p : String) (i : ℕ) : Bool :=
  acc.any (fun a =>
    a.type == "Sustained Deviation" && a.parameter == p &&
      decide (((a.index : ℤ) - (i : ℤ)).natAbs < 20))

/-- The window mean of `_detectSustainedDeviations` at index `i`. -/
def wmOf (data : List DataRecord) (p : String) (i : ℕ) : ℚ :=
  (sustainedWindow data p i).foldl (· + ·) (0 : ℚ) /
    ((sustainedWindow data p i).length : ℚ)

/-- The squared sigma deviation of the window at index `i`
(`dev = |wm - mean| / std`, carried as its square). -/
def devSqOf (data : List DataRecord) (p : String) (s : Stat) (i : ℕ) : ℚ :=
  sq (wmOf data p i - s.mean) / s.variance

/-- The body of the inner loop of `_detectSustainedDeviations` for parameter
`p` (with baseline `s`) at window index `i`, acting on the accumulated
anomaly list (`SIG = 2.0`, embedded as `devSq > 4`; `WIN * 0.8 = 16`). -/
def sustainedStep (data : List DataRecord) (p : String) (s : Stat)
    (acc : List Anomaly) (i : ℕ) : List Anomaly :=
  if (sustainedWindow data p i).length < 16 then acc
  else if devSqOf data p s i > 4 then
    if sustainedDup acc p i then acc
    else
      acc ++ [mkSustained p i ((data.drop i).headD ⟨none, fun _ => none⟩)
        (wmOf data p i) s.mean (devSqOf data p s i)]
  else acc

/-- The window indices `i = WIN, …, data.length - 1` of the inner loop. -/
def windowIndices (data : List DataRecord) : List ℕ :=
  (List.range data.length).drop 20

/-- `_detectSustainedDeviations(data)`: unlike the other detectors this one
reads the running anomaly list (for deduplication), so it is embedded as a
fold extending that list. -/
def detectSustainedDeviations (stats : String → Option Stat)
    (data : List DataRecord) (acc : List Anomaly) : List Anomaly :=
  (statEntries stats).foldl
    (fun acc1 e =>
      if e.2.variance = 0 then acc1
      else (windowIndices data).foldl (fun acc2 i => sustainedStep data e.1 e.2 acc2 i) acc1)
    acc

/-- The comparator of `this.anomalies.sort((a, b) => a.missionTime - b.missionTime)`. -/
def byTime (a b : Anomaly) : Prop := a.missionTime ≤ b.missionTime

instance : DecidableRel byTime := fun a b =>
  if h : a.missionTime ≤ b.missionTime then isTrue h else isFalse h

/-- The in-place stable sort of `_clusterAnomalies`, modelled by the (stable)
insertion sort on the same comparator. -/
def sortByTime (l : List Anomaly) : List Anomaly := l.insertionSort byTime

/-- `EVT-${String(eid).padStart(3, '0')}`. -/
def evtId (eid : ℕ) : String :=
  let s := toString eid
  "EVT-" ++ (if s.length < 3 then String.mk (List.replicate (3 - s.length) '0') ++ s else s)

/-- The severity rollup of `_clusterAnomalies`:
`sevs.includes('CRITICAL') ? ... : sevs.includes('WARNING') ? ... : 'CAUTION'`. -/
def rollSeverity (sevs : List String) : String :=
  if "CRITICAL" ∈ sevs then "CRITICAL"
  else if "WARNING" ∈ sevs then "WARNING" else "CAUTION"

/-- `[...new Set(l)]`: deduplication preserving first-occurrence order. -/
def dedupKeepFirst (l : List String) : List String :=
  l.foldl (fun acc x => if x ∈ acc then acc else acc ++ [x]) []

/-- Whether anomaly `b` is absorbed into the event seeded at start time `t₀`:
`Math.abs(anomalies[j].missionTime - ev.startTime) < TIME_WIN` (`TIME_WIN = 10`). -/
def inWindow (t₀ : ℚ) (b : Anomaly) : Bool := decide (jsAbs (b.missionTime - t₀) < 10)

/-- The event built from a seed and its absorbed anomalies. -/
def mkEvent (eid : ℕ) (a : Anomaly) (absorbed : List Anomaly) : Event :=
  let members := a :: absorbed
  { id := evtId eid
    anomalies := members
    startTime := a.missionTime
    endTime := absorbed.foldl (fun t b => jsMax t b.missionTime) a.missionTime
    severity := rollSeverity (members.map (·.severity))
    affectedParams := dedupKeepFirst (members.map (·.paramLabel))
    anomalyTypes := dedupKeepFirst (members.map (·.type))
    count := members.length }

/-- The greedy clustering loop of `_clusterAnomalies` on the time-sorted
anomaly list.  The source iterates indices with a `used` set; since the inner
loop only marks indices after the current seed, the unvisited suffix at each
outer step is exactly the sublist not yet absorbed, giving this recursion:
seed on the first remaining anomaly, absorb every later remaining anomaly
within `TIME_WIN` of the seed's start time, and continue on the rest.  The
`fuel` argument (any bound ≥ list length, decreased by one per event) makes
the recursion structural so that the definition evaluates by kernel
reduction; `clusterGo_congr` below shows the fuel is irrelevant. -/
def clusterGo : ℕ → List Anomaly → ℕ → List Event
  | _, [], _ => []
  | 0, _ :: _, _ => []
  | fuel + 1, a :: rest, eid =>
    let absorbed := rest.filter (inWindow a.missionTime)
    let remaining := rest.filter (fun b => !inWindow a.missionTime b)
    mkEvent eid a absorbed :: clusterGo fuel remaining (eid + 1)

/-- `_clusterAnomalies()` on an anomaly list: sort by mission time, then
cluster greedily with event ids counting from 1.  Returns the pair
(sorted anomaly list, event list) written back into the state. -/
def clusterAnomalies (l : List Anomaly) : List Anomaly × List Event :=
  let sorted := sortByTime l
  (sorted, clusterGo sorted.length sorted 1)

/-- The unclustered anomaly list produced by the four detector passes of
`detectAll` on the working set `w`, starting from the stats dictionary `σ`
(the instance's current `this.stats`, updated first by `_computeStats`).
The pushes of the four passes concatenate in source order. -/
def rawAnomalies (σ : String → Option Stat) (w : List DataRecord) : List Anomaly :=
  detectSustainedDeviations (computeStats σ w) w
    ((detectZScoreAnomalies (computeStats σ w) w
        ++ detectRateOfChange (computeStats σ w) w)
      ++ detectRedlineViolations w)

/-- `detectAll()`: reset the anomaly list, filter the working set (returning
with an empty list if nothing remains, before stats or events are touched),
run the four detectors, then sort and cluster. -/
def detectAll (s : DState) : DState :=
  if (workingSet s.data).isEmpty then { s with anomalies := [] }
  else
    { data := s.data
      stats := computeStats s.stats (workingSet s.data)
      anomalies := (clusterAnomalies (rawAnomalies s.stats (workingSet s.data))).1
      events := some (clusterAnomalies (rawAnomalies s.stats (workingSet s.data))).2 }

/-- The severity tallies of `getSummary` (all three tiers start at zero). -/
structure SevCounts where
  critical : ℕ
  warning : ℕ
  caution : ℕ
deriving DecidableEq, Repr

/-- `bySeverity[a.severity]++` (every produced anomaly carries one of the
three tier strings). -/
def sevBump (c : SevCounts) (s : String) : SevCounts :=
  if s = "CRITICAL" then { c with critical := c.critical + 1 }
  else if s = "WARNING" then { c with warning := c.warning + 1 }
  else if s = "CAUTION" then { c with caution := c.caution + 1 }
  else c

/-- `byType[k] = (byType[k] || 0) + 1` on an insertion-ordered dictionary:
bump an existing key in place, append a new key at the end. -/
def bump (l : List (String × ℕ)) (k : String) : List (String × ℕ) :=
  if l.any (fun e => e.1 == k) then
    l.map (fun e => if e.1 == k then (e.1, e.2 + 1) else e)
  else l ++ [(k, 1)]

/-- The summary object of `getSummary`. -/
structure Summary where
  totalAnomalies : ℕ
  totalEvents : ℕ
  bySeverity : SevCounts
  byType : List (String × ℕ)
  byParameter : List (String × ℕ)
  events : List Event
  redlineLimits : List (String × RLimit)
  missionEvents : List (String × ℚ)
deriving DecidableEq, Repr

/-- `getSummary()` (`this.events?.length || 0` and `this.events || []` both
read the possibly still-undefined events field). -/
def getSummary (s : DState) : Summary :=
  { totalAnomalies := s.anomalies.length
    totalEvents := ((s.events.map (·.length)).getD 0)
    bySeverity := s.anomalies.foldl (fun c a => sevBump c a.severity) ⟨0, 0, 0⟩
    byType := s.anomalies.foldl (fun l a => bump l a.type) []
    byParameter := s.anomalies.foldl (fun l a => bump l a.paramLabel) []
    events := s.events.getD []
    redlineLimits := REDLINE_LIMITS
    missionEvents := MISSION_EVENTS }

/-!
## An IEEE-style value model for `_computeStats`

The filter of `_computeStats` is `typeof v === 'number' && !isNaN(v)`, which
admits `Infinity` and `-Infinity`.  The rational model above cannot represent
those, so the statistics pass alone is re-embedded here over `JNum`, JS
numbers with the two infinities and NaN, with IEEE-754 addition, subtraction,
squaring, division by a positive count, and min/max.  As before, the stored
`std = Math.sqrt(variance)` is represented by `variance` itself
(`Math.sqrt` maps NaN to NaN and `Infinity` to `Infinity`, and a negative
finite variance cannot arise).
-/

/-- A JS number: finite, `Infinity`, `-Infinity`, or `NaN`. -/
inductive JNum where
  | fin (q : ℚ)
  | inf
  | ninf
  | nan
deriving DecidableEq, Repr

/-- IEEE-754 addition (used by `values.reduce((a, b) => a + b, 0)`). -/
def jnAdd : JNum → JNum → JNum
  | .nan, _ => .nan
  | _, .nan => .nan
  | .inf, .ninf => .nan
  | .ninf, .inf => .nan
  | .inf, _ => .inf
  | _, .inf => .inf
  | .ninf, _ => .ninf
  | _, .ninf => .ninf
  | .fin a, .fin b => .fin (a + b)

/-- IEEE-754 subtraction (used by `(v - mean)`). -/
def jnSub : JNum → JNum → JNum
  | .nan, _ => .nan
  | _, .nan => .nan
  | .inf, .inf => .nan
  | .ninf, .ninf => .nan
  | .inf, _ => .inf
  | .ninf, _ => .ninf
  | _, .inf => .ninf
  | _, .ninf => .inf
  | .fin a, .fin b => .fin (a - b)

/-- IEEE-754 squaring (`(v - mean) ** 2`). -/
def jnSq : JNum → JNum
  | .nan => .nan
  | .inf => .inf
  | .ninf => .inf
  | .fin q => .fin (sq q)

/-- IEEE-754 division by a count `n ≥ 1` (the two `/ values.length` sites,
only reached with a nonempty value list). -/
def jnDivNat (a : JNum) (n : ℕ) : JNum :=
  match a with
  | .nan => .nan
  | .inf => .inf
  | .ninf => .ninf
  | .fin q => .fin (q / (n : ℚ))

/-- Binary `Math.min` on non-NaN JS numbers. -/
def jnMin : JNum → JNum → JNum
  | .nan, _ => .nan
  | _, .nan => .nan
  | .ninf, _ => .ninf
  | _, .ninf => .ninf
  | .inf, b => b
  | a, .inf => a
  | .fin a, .fin b => .fin (min a b)

/-- Binary `Math.max` on non-NaN JS numbers. -/
def jnMax : JNum → JNum → JNum
  | .nan, _ => .nan
  | _, .nan => .nan
  | .inf, _ => .inf
  | _, .inf => .inf
  | .ninf, b => b
  | a, .ninf => a
  | .fin a, .fin b => .fin (max a b)

/-- `Math.min(...values)` (`Infinity` on an empty spread, never reached). -/
def jnListMin : List JNum → JNum
  | [] => .inf
  | v :: t => t.foldl jnMin v

/-- `Math.max(...values)` (`-Infinity` on an empty spread, never reached). -/
def jnListMax : List JNum → JNum
  | [] => .ninf
  | v :: t => t.foldl jnMax v

/-- An input record in the `JNum` model: `none` is a missing or non-numeric
entry, `some .nan` a NaN one. -/
structure RecordE where
  mission_time_s : Option ℚ
  get : String → Option JNum

/-- A baseline entry in the `JNum` model (again `variance` for `std²`). -/
structure StatE where
  mean : JNum
  variance : JNum
  min : JNum
  max : JNum
deriving DecidableEq, Repr

/-- `data.map(d => d[param]).filter(v => typeof v === 'number' && !isNaN(v))`:
numeric and not NaN — infinities pass this filter. -/
def numericVals (data : List RecordE) (p : String) : List JNum :=
  data.filterMap (fun r =>
    match r.get p with
    | some v => if v = JNum.nan then none else some v
    | none => none)

/-- `values.reduce((a, b) => a + b, 0)` over `JNum`. -/
def jnSumOf (vs : List JNum) : JNum := vs.foldl jnAdd (.fin 0)

/-- `sum / values.length` over `JNum`. -/
def jnMeanOf (vs : List JNum) : JNum := jnDivNat (jnSumOf vs) vs.length

/-- `values.reduce((a, v) => a + (v - mean) ** 2, 0) / values.length` over
`JNum`. -/
def jnVarOf (vs : List JNum) : JNum :=
  jnDivNat (vs.foldl (fun a v => jnAdd a (jnSq (jnSub v (jnMeanOf vs)))) (.fin 0))
    vs.length

/-- The `{mean, std, min, max}` entry of `_computeStats` over `JNum`. -/
def statEOfValues (vs : List JNum) : StatE :=
  { mean := jnMeanOf vs, variance := jnVarOf vs
    min := jnListMin vs, max := jnListMax vs }

/-- `_computeStats(data)` over the `JNum` model. -/
def computeStatsE (stats : String → Option StatE) (data : List RecordE) :
    String → Option StatE :=
  REDLINE_PARAMS.foldl
    (fun st p =>
      if (numericVals data p).isEmpty then st
      else Function.update st p (some (statEOfValues (numericVals data p))))
    stats

/-!
## Specification-level statistics formulas

These two definitions follow the wording of the specification (`§4.1`:
mean and population variance `Σ(x - mean)² / n` over the valid values), for
comparison with the embedded `_computeStats`.
-/

/-- The mean of the specification: `Σx / n`. -/
def specMean (qs : List ℚ) : ℚ := qs.sum / (qs.length : ℚ)

/-- The population variance of the specification: `Σ(x - mean)² / n`
(no Bessel correction). -/
def specPopVariance (qs : List ℚ) : ℚ :=
  ((qs.map (fun x => sq (x - specMean qs))).sum) / (qs.length : ℚ)

/-!
## Concrete inputs used by the claim instances and witnesses
-/

/-- A record carrying one parameter value at one mission time. -/
def mkSimpleRecord (t : ℚ) (p : String) (v : ℚ) : DataRecord :=
  ⟨some t, fun q => if q = p then some v else none⟩

/-- A placeholder anomaly (used only as the default of `List.headD`). -/
def dummyAnomaly : Anomaly :=
  { type := "", severity := "", parameter := "", paramLabel := "", value := 0,
    unit := "", missionTime := 0, index := 0 }

/-- A placeholder event (used only as the default of `List.headD`). -/
def dummyEvent : Event :=
  { id := "", anomalies := [], startTime := 0, endTime := 0, severity := "",
    affectedParams := [], anomalyTypes := [], count := 0 }

/-- A minimal anomaly at mission time `t` (for the clustering instances). -/
def basicAnomaly (t : ℚ) : Anomaly :=
  { type := "Redline Violation", severity := "CAUTION", parameter := "velocity_ms",
    paramLabel := "Velocity", value := 0, unit := "m/s", missionTime := t, index := 0 }

/-- One sample of `downrange_distance_km` (static limit `max = 1500`) at
value `1575`. -/
def c2Data : List DataRecord := [mkSimpleRecord 0 "downrange_distance_km" 1575]

/-- One sample of `acceleration_ms2` (static limit `min = 0`) at value `-2`:
a LOW violation against a limit whose value is zero. -/
def c3Data : List DataRecord := [mkSimpleRecord 0 "acceleration_ms2" (-2)]

/-- Thirty samples of `velocity_ms`: constant `100` except value `180` at
index 15; mission times `0, …, 29`. -/
def c4Data : List DataRecord :=
  (List.range 30).map (fun i =>
    mkSimpleRecord (i : ℚ) "velocity_ms" (if i = 15 then 180 else 100))

/-- 122 samples of `velocity_ms`: `0` on indices `0–99`, then `1` on indices
`100–121`.  The sustained-deviation windows ending at indices 119, 120 and
121 all deviate by more than two baseline sigmas, and their indices differ by
less than the window size. -/
def c5Data : List DataRecord :=
  (List.range 122).map (fun i =>
    mkSimpleRecord (i : ℚ) "velocity_ms" (if 100 ≤ i then 1 else 0))

/-- Two records with no usable mission time: one non-numeric, one negative. -/
def c7Data : List DataRecord :=
  [⟨none, fun _ => none⟩, ⟨some (-5), fun _ => none⟩]

/-- Two redline violations of `acceleration_ms2` (limit `max = 40`) five
seconds apart: one event with two members. -/
def c9Data : List DataRecord :=
  [mkSimpleRecord 0 "acceleration_ms2" 50, mkSimpleRecord 5 "acceleration_ms2" 50]

/-- A record carrying a value under a name outside the redline table next to
an in-table violation (`mach_number` has static limit `max = 25`). -/
def c10Data : List DataRecord :=
  [⟨some 3, fun q =>
      if q = "chamber_pressure_bar" then some 99999
      else if q = "mach_number" then some 30 else none⟩]

/-- The anomaly produced from `c3Data` (spelled out). -/
def c3wAnom : Anomaly :=
  { type := "Redline Violation", severity := "CRITICAL",
    parameter := "acceleration_ms2", paramLabel := "Acceleration",
    value := -2, unit := "m/s2", missionTime := 0, index := 0,
    redlineLimit := some 0, exceedance := some 2,
    direction := some "LOW", percentOver := some 200 }

/-- One member anomaly of the event produced from `c9Data` (spelled out). -/
def c9wMember (t : ℚ) (i : ℕ) : Anomaly :=
  { type := "Redline Violation", severity := "CRITICAL",
    parameter := "acceleration_ms2", paramLabel := "Acceleration",
    value := 50, unit := "m/s2", missionTime := t, index := i,
    redlineLimit := some 40, exceedance := some 10,
    direction := some "HIGH", percentOver := some 25 }

/-- The event produced from `c9Data` (spelled out). -/
def c9wEvent : Event :=
  { id := "EVT-001", anomalies := [c9wMember 0 0, c9wMember 5 1],
    startTime := 0, endTime := 5, severity := "CRITICAL",
    affectedParams := ["Acceleration"], anomalyTypes := ["Redline Violation"],
    count := 2 }

/-- The anomaly produced from `c10Data` (spelled out). -/
def c10wAnom : Anomaly :=
  { type := "Redline Violation", severity := "CRITICAL",
    parameter := "mach_number", paramLabel := "Mach Number",
    value := 30, unit := "", missionTime := 3, index := 0,
    redlineLimit := some 25, exceedance := some 5,
    direction := some "HIGH", percentOver := some 20 }

/-- A `JNum`-model record whose only monitored value is `Infinity`. -/
def c8InfData : List RecordE :=
  [⟨some 0, fun q => if q = "velocity_ms" then some JNum.inf else none⟩]

/-- Two finite `JNum`-model samples of `velocity_ms`, values `1` and `3`. -/
def c8FinData : List RecordE :=
  [⟨some 0, fun q => if q = "velocity_ms" then some (JNum.fin 1) else none⟩,
   ⟨some 1, fun q => if q = "velocity_ms" then some (JNum.fin 3) else none⟩]

/-- The empty stats dictionary (the constructor state of both models). -/
def emptyStatsE : String → Option StatE := fun _ => none

/-- The separation property of the sustained-deviation deduplication: two
sustained-deviation anomalies of the same parameter lie at least the window
size `W = 20` apart in sample index. -/
def sepR (a b : Anomaly) : Prop :=
  (a.type = "Sustained Deviation" ∧ b.type = "Sustained Deviation" ∧
    a.parameter = b.parameter) → 20 ≤ ((a.index : ℤ) - (b.index : ℤ)).natAbs

/-- The state of a detector instance after one `detectAll` call on a
nonempty working set (a characterization used by the idempotence proof). -/
def run1 (data : List DataRecord) : DState :=
  { data := data
    anomalies := (clusterAnomalies (rawAnomalies (fun _ => none) (workingSet data))).1
    stats := computeStats (fun _ => none) (workingSet data)
    events := some (clusterAnomalies (rawAnomalies (fun _ => none) (workingSet data))).2 }

/-!
## Basic lemmas
-/

/-- Pointwise description of the dictionary produced by folding
conditional writes over a key list (shared by both `_computeStats` models). -/
theorem foldl_update_apply {γ β : Type} (vals : String → List γ) (entry : String → β) :
    ∀ (L : List String) (σ : String → Option β) (p : String),
      (L.foldl
          (fun st q =>
            if (vals q).isEmpty then st else Function.update st q (some (entry q)))
          σ) p
        = if p ∈ L ∧ ¬((vals p).isEmpty = true) then some (entry p) else σ p := by
  intro L
  induction L with
  | nil => intro σ p; simp
  | cons q t ih =>
    intro σ p
    rw [List.foldl_cons, ih]
    by_cases hpt : p ∈ t ∧ ¬((vals p).isEmpty = true)
    · rw [if_pos hpt, if_pos ⟨List.mem_cons_of_mem q hpt.1, hpt.2⟩]
    · rw [if_neg hpt]
      by_cases hv : (vals q).isEmpty = true
      · rw [if_pos hv]
        have hno : ¬(p ∈ q :: t ∧ ¬((vals p).isEmpty = true)) := by
          rintro ⟨hm, hne⟩
          rcases List.mem_cons.mp hm with rfl | hm'
          · exact hne hv
          · exact hpt ⟨hm', hne⟩
        rw [if_neg hno]
      · rw [if_neg hv]
        by_cases hpq : p = q
        · subst hpq
          rw [Function.update_same,
            if_pos ⟨List.mem_cons_self p t, fun h => hv h⟩]
        · rw [Function.update_noteq hpq]
          have hno : ¬(p ∈ q :: t ∧ ¬((vals p).isEmpty = true)) := by
            rintro ⟨hm, hne⟩
            rcases List.mem_cons.mp hm with rfl | hm'
            · exact hpq rfl
            · exact hpt ⟨hm', hne⟩
          rw [if_neg hno]

/-- Pointwise description of `_computeStats` over the rational model. -/
theorem computeStats_apply (σ : String → Option Stat) (d : List DataRecord)
    (p : String) :
    computeStats σ d p =
      if p ∈ REDLINE_PARAMS ∧ ¬((paramValues d p).isEmpty = true)
      then some (statOfValues (paramValues d p)) else σ p :=
  foldl_update_apply (fun q => paramValues d q)
    (fun q => statOfValues (paramValues d q)) REDLINE_PARAMS σ p

/-- Pointwise description of `_computeStats` over the `JNum` model. -/
theorem computeStatsE_apply (σ : String → Option StatE) (d : List RecordE)
    (p : String) :
    computeStatsE σ d p =
      if p ∈ REDLINE_PARAMS ∧ ¬((numericVals d p).isEmpty = true)
      then some (statEOfValues (numericVals d p)) else σ p :=
  foldl_update_apply (fun q => numericVals d q)
    (fun q => statEOfValues (numericVals d q)) REDLINE_PARAMS σ p

/-!
## Claim instances on concrete inputs
-/

set_option maxRecDepth 100000 in
/-- C2: a valid sample of value `1575` on the parameter with static redline
`max = 1500` yields exactly one anomaly, a Redline Violation with
`exceedance = 75` and `percentOver = 5`; since `5` is not strictly greater
than `5`, its severity is `CAUTION`, not `WARNING`. -/
theorem claim2_redline_boundary :
    (detectAll (initState c2Data)).anomalies =
      [{ type := "Redline Violation", severity := "CAUTION",
         parameter := "downrange_distance_km", paramLabel := "Downrange Distance",
         value := 1575, unit := "km", missionTime := 0, index := 0,
         redlineLimit := some 1500, exceedance := some 75,
         direction := some "HIGH", percentOver := some 5 }] := by
  with_unfolding_all decide

set_option maxRecDepth 100000 in
/-- C3 (counterexample): on a LOW violation of `acceleration_ms2` (static
`min = 0`) at value `-2`, the source stores `percentOver = 200`: the divisor
is `Math.abs(viol.limit || 1) = 1`, not the violated limit itself.  The
claimed formula `100 × exceedance / |limit|` cannot produce `200` at this
input: over the reals it is undefined (JS would give `Infinity`), and under
the total rational convention `x / 0 = 0` it is `0`. -/
theorem claim3_percent_over_counterexample :
    ((detectAll (initState c3Data)).anomalies.map
        (fun a => (a.type, a.percentOver, a.exceedance, a.redlineLimit)))
      = [("Redline Violation", some 200, some 2, some 0)]
    ∧ ¬((200 : ℚ) = 100 * 2 / jsAbs 0) := by
  with_unfolding_all decide

set_option maxRecDepth 100000 in
/-- C4 (counterexample): on the 29-at-100, one-at-180 input the population
standard deviation is `√(1856/9)` and the outlier's z-score is `√29`.
Since `(14.335)² < 1856/9`, the standard deviation exceeds `14.335`, so it is
not `14.33` to the precision stated; since `29 < (5.575)²`, the z-score is
below `5.575`, so it is not `5.58` to the precision stated. -/
theorem claim4_single_outlier_counterexample :
    ((detectAll (initState c4Data)).stats "velocity_ms").map Stat.variance
        = some (1856/9)
    ∧ (14335/1000 : ℚ) * (14335/1000) < 1856/9
    ∧ (((detectAll (initState c4Data)).anomalies.filter
          (fun a => a.type == "Z-Score Outlier")).map (fun a => a.zScoreSq))
        = [some 29]
    ∧ (29 : ℚ) < (5575/1000) * (5575/1000) := by
  with_unfolding_all decide

set_option maxRecDepth 100000 in
/-- C4 (amended): on 30 samples of one monitored parameter, 29 at constant
value 100 and one at 180 with valid mission times, the population variance
over the 30 samples is exactly `1856/9` (standard deviation `√(1856/9)`,
between `14.355` and `14.365`, so `≈ 14.36`), the outlier's squared z-score
is exactly `29` (z-score `√29`, between `5.385` and `5.390`, so `≈ 5.39`),
and detection produces exactly one Z-Score Outlier anomaly for that
parameter, with severity `CRITICAL`. -/
theorem claim4_single_outlier_amended :
    (((detectAll (initState c4Data)).anomalies.filter
          (fun a => a.type == "Z-Score Outlier")).map
        (fun a => (a.severity, a.parameter, a.zScoreSq, a.index)))
      = [("CRITICAL", "velocity_ms", some 29, 15)]
    ∧ ((detectAll (initState c4Data)).stats "velocity_ms").map Stat.variance
        = some (1856/9)
    ∧ (14355/1000 : ℚ) * (14355/1000) < 1856/9
    ∧ (1856/9 : ℚ) < (14365/1000) * (14365/1000)
    ∧ (5385/1000 : ℚ) * (5385/1000) < 29
    ∧ (29 : ℚ) < (539/100) * (539/100) := by
  with_unfolding_all decide

/-!
## Shape lemmas for the four detectors
-/

/-- Every entry iterated from the stats dictionary carries a monitored
parameter name. -/
theorem statEntries_mem {st : String → Option Stat} {e : String × Stat}
    (h : e ∈ statEntries st) : e.1 ∈ REDLINE_PARAMS := by
  simp only [statEntries, List.mem_filterMap] at h
  obtain ⟨p, hp, he⟩ := h
  cases hst : st p with
  | none => rw [hst] at he; simp at he
  | some s =>
    rw [hst] at he
    simp only [Option.map_some', Option.some.injEq] at he
    rw [← he]
    exact hp

/-- An anomaly produced by the z-score candidate is tagged `Z-Score Outlier`
on the candidate's parameter. -/
theorem zCandidate_some {p : String} {s : Stat} {ir : ℕ × DataRecord}
    {a : Anomaly} (h : zCandidate p s ir = some a) :
    a.type = "Z-Score Outlier" ∧ a.parameter = p := by
  simp only [zCandidate] at h
  split at h
  · exact absurd h (by simp)
  · split at h
    · obtain rfl := Option.some.inj h
      exact ⟨rfl, rfl⟩
    · exact absurd h (by simp)

/-- An anomaly produced by the rate-of-change candidate is tagged
`Rapid Change` on the candidate's parameter. -/
theorem rocCandidate_some {p : String} {th : ℚ}
    {kab : ℕ × (DataRecord × DataRecord)} {a : Anomaly}
    (h : rocCandidate p th kab = some a) :
    a.type = "Rapid Change" ∧ a.parameter = p := by
  simp only [rocCandidate] at h
  split at h
  · split at h
    · obtain rfl := Option.some.inj h
      exact ⟨rfl, rfl⟩
    · exact absurd h (by simp)
  · exact absurd h (by simp)

/-- An anomaly produced by the redline candidate is exactly a `mkRedline`
record for one of the two violation directions. -/
theorem redlineCandidate_some {p : String} {lim : RLimit} {ir : ℕ × DataRecord}
    {a : Anomaly} (h : redlineCandidate p lim ir = some a) :
    ∃ v dir exc lm, a = mkRedline p lim ir.1 ir.2 v dir exc lm := by
  simp only [redlineCandidate] at h
  split at h
  · exact absurd h (by simp)
  · split at h
    · exact ⟨_, _, _, _, (Option.some.inj h).symm⟩
    · split at h
      · exact ⟨_, _, _, _, (Option.some.inj h).symm⟩
      · exact absurd h (by simp)

/-- Membership in the z-score detector output. -/
theorem mem_detectZScoreAnomalies {st : String → Option Stat}
    {data : List DataRecord} {a : Anomaly}
    (h : a ∈ detectZScoreAnomalies st data) :
    a.type = "Z-Score Outlier" ∧ a.parameter ∈ REDLINE_PARAMS := by
  simp only [detectZScoreAnomalies, List.mem_flatMap] at h
  obtain ⟨e, he, h⟩ := h
  split at h
  · exact absurd h (by simp)
  · simp only [List.mem_filterMap] at h
    obtain ⟨ir, _, h⟩ := h
    obtain ⟨ht, hp⟩ := zCandidate_some h
    exact ⟨ht, hp ▸ statEntries_mem he⟩

/-- Membership in the rate-of-change detector output. -/
theorem mem_detectRateOfChange {st : String → Option Stat}
    {data : List DataRecord} {a : Anomaly}
    (h : a ∈ detectRateOfChange st data) :
    a.type = "Rapid Change" ∧ a.parameter ∈ REDLINE_PARAMS := by
  simp only [detectRateOfChange, List.mem_flatMap] at h
  obtain ⟨e, he, h⟩ := h
  split at h
  · exact absurd h (by simp)
  · split at h
    · exact absurd h (by simp)
    · simp only [List.mem_filterMap] at h
      obtain ⟨kab, _, h⟩ := h
      obtain ⟨ht, hp⟩ := rocCandidate_some h
      exact ⟨ht, hp ▸ statEntries_mem he⟩

/-- Membership in the redline detector output. -/
theorem mem_detectRedlineViolations {data : List DataRecord} {a : Anomaly}
    (h : a ∈ detectRedlineViolations data) :
    ∃ p lim i r v dir exc lm,
      (p, lim) ∈ REDLINE_LIMITS ∧ a = mkRedline p lim i r v dir exc lm := by
  simp only [detectRedlineViolations, List.mem_flatMap] at h
  obtain ⟨pl, hpl, h⟩ := h
  simp only [List.mem_filterMap] at h
  obtain ⟨ir, _, h⟩ := h
  obtain ⟨v, dir, exc, lm, rfl⟩ := redlineCandidate_some h
  exact ⟨pl.1, pl.2, ir.1, ir.2, v, dir, exc, lm, hpl, rfl⟩

/-- Elements reached by folding a step that only appends elements satisfying
`Q` were either present already or satisfy `Q`. -/
theorem foldl_mem_pred {α : Type} (step : List Anomaly → α → List Anomaly)
    (Q : Anomaly → Prop) :
    ∀ (L : List α),
      (∀ acc b, b ∈ L → ∀ a, a ∈ step acc b → a ∈ acc ∨ Q a) →
      ∀ (acc : List Anomaly) (a : Anomaly),
        a ∈ L.foldl step acc → a ∈ acc ∨ Q a := by
  intro L
  induction L with
  | nil => intro _ acc a h; exact Or.inl h
  | cons b t ih =>
    intro hstep acc a h
    rcases ih (fun acc c hc x hx => hstep acc c (List.mem_cons_of_mem b hc) x hx)
        (step acc b) a h with h' | h'
    · exact hstep acc b (List.mem_cons_self b t) a h'
    · exact Or.inr h'

/-- A fold preserving a list property preserves it over a whole traversal. -/
theorem foldl_preserve {α : Type} {P : List Anomaly → Prop}
    (step : List Anomaly → α → List Anomaly)
    (hstep : ∀ acc b, P acc → P (step acc b)) :
    ∀ (L : List α) (acc : List Anomaly), P acc → P (L.foldl step acc) := by
  intro L
  induction L with
  | nil => intro acc h; exact h
  | cons b t ih => intro acc h; exact ih _ (hstep acc b h)

/-- Membership in the sustained-deviation output: an element was already
accumulated or is a freshly built sustained-deviation anomaly. -/
theorem mem_sustainedStep {data : List DataRecord} {p : String} {s : Stat}
    {acc : List Anomaly} {i : ℕ} {a : Anomaly}
    (h : a ∈ sustainedStep data p s acc i) :
    a ∈ acc ∨ (a.type = "Sustained Deviation" ∧ a.parameter = p ∧ a.index = i) := by
  simp only [sustainedStep] at h
  split at h
  · exact Or.inl h
  · split at h
    · split at h
      · exact Or.inl h
      · rcases List.mem_append.mp h with h' | h'
        · exact Or.inl h'
        · obtain rfl := List.mem_singleton.mp h'
          exact Or.inr ⟨rfl, rfl, rfl⟩
    · exact Or.inl h

/-- Membership in `_detectSustainedDeviations`. -/
theorem mem_detectSustainedDeviations {st : String → Option Stat}
    {data : List DataRecord} {acc : List Anomaly} {a : Anomaly}
    (h : a ∈ detectSustainedDeviations st data acc) :
    a ∈ acc ∨ (a.type = "Sustained Deviation" ∧ a.parameter ∈ REDLINE_PARAMS) := by
  refine foldl_mem_pred _
    (fun x => x.type = "Sustained Deviation" ∧ x.parameter ∈ REDLINE_PARAMS)
    (statEntries st) ?_ acc a h
  intro acc1 e he b hb
  by_cases hv : e.2.variance = 0
  · rw [if_pos hv] at hb
    exact Or.inl hb
  · rw [if_neg hv] at hb
    rcases foldl_mem_pred (fun acc2 i => sustainedStep data e.1 e.2 acc2 i)
        (fun x => x.type = "Sustained Deviation" ∧ x.parameter = e.1)
        (windowIndices data)
        (fun acc2 i _ x hx =>
          (mem_sustainedStep hx).imp_right (fun hq => ⟨hq.1, hq.2.1⟩))
        acc1 b hb with h' | h'
    · exact Or.inl h'
    · exact Or.inr ⟨h'.1, h'.2 ▸ statEntries_mem he⟩

/-- Membership in the merged, pre-clustering anomaly list. -/
theorem mem_rawAnomalies {σ : String → Option Stat} {w : List DataRecord}
    {a : Anomaly} (h : a ∈ rawAnomalies σ w) :
    (a.type = "Z-Score Outlier" ∧ a.parameter ∈ REDLINE_PARAMS) ∨
    (a.type = "Rapid Change" ∧ a.parameter ∈ REDLINE_PARAMS) ∨
    (∃ p lim i r v dir exc lm,
        (p, lim) ∈ REDLINE_LIMITS ∧ a = mkRedline p lim i r v dir exc lm) ∨
    (a.type = "Sustained Deviation" ∧ a.parameter ∈ REDLINE_PARAMS) := by
  rcases mem_detectSustainedDeviations h with h' | h'
  · rcases List.mem_append.mp h' with h'' | h''
    · rcases List.mem_append.mp h'' with h3 | h3
      · exact Or.inl (mem_detectZScoreAnomalies h3)
      · exact Or.inr (Or.inl (mem_detectRateOfChange h3))
    · exact Or.inr (Or.inr (Or.inl (mem_detectRedlineViolations h'')))
  · exact Or.inr (Or.inr (Or.inr h'))

/-- The anomaly list of a finished `detectAll` run is the time-sorted merged
list when the working set is nonempty, and empty otherwise. -/
theorem detectAll_anomalies (s : DState) :
    (detectAll s).anomalies =
      if (workingSet s.data).isEmpty then []
      else sortByTime (rawAnomalies s.stats (workingSet s.data)) := by
  by_cases hw : (workingSet s.data).isEmpty = true
  · rw [detectAll, if_pos hw, if_pos hw]
  · rw [detectAll, if_neg hw, if_neg hw]
    rfl

/-- Membership in the anomaly list of a finished `detectAll` run. -/
theorem mem_detectAll_cases {s : DState} {a : Anomaly}
    (h : a ∈ (detectAll s).anomalies) :
    (a.type = "Z-Score Outlier" ∧ a.parameter ∈ REDLINE_PARAMS) ∨
    (a.type = "Rapid Change" ∧ a.parameter ∈ REDLINE_PARAMS) ∨
    (∃ p lim i r v dir exc lm,
        (p, lim) ∈ REDLINE_LIMITS ∧ a = mkRedline p lim i r v dir exc lm) ∨
    (a.type = "Sustained Deviation" ∧ a.parameter ∈ REDLINE_PARAMS) := by
  rw [detectAll_anomalies] at h
  by_cases hw : (workingSet s.data).isEmpty = true
  · rw [if_pos hw] at h
    exact absurd h (List.not_mem_nil a)
  · rw [if_neg hw] at h
    exact mem_rawAnomalies ((List.mem_insertionSort byTime).mp h)

/-!
## Claims C10, C3 (amended part) and C7
-/

/-- C10: every anomaly produced by `detectAll`, of any of the four types,
has a `parameter` field that is a key of the static redline table (so values
appearing under out-of-table parameter names are never the subject of an
anomaly from any detector). -/
theorem claim10_parameters_in_table (data : List DataRecord) (a : Anomaly)
    (h : a ∈ (detectAll (initState data)).anomalies) :
    a.parameter ∈ REDLINE_PARAMS := by
  rcases mem_detectAll_cases h with h' | h' | h' | h'
  · exact h'.2
  · exact h'.2
  · obtain ⟨p, lim, i, r, v, dir, exc, lm, hmem, rfl⟩ := h'
    exact List.mem_map_of_mem (·.1) hmem
  · exact h'.2

set_option maxRecDepth 100000 in
/-- C10 (witness): on a record carrying `99999` under the out-of-table name
`chamber_pressure_bar` and a violating `9000` under `velocity_ms`, every
produced anomaly names a parameter of the table — concretely the first one
names `velocity_ms`, and indeed no anomaly mentions the out-of-table name. -/
theorem claim10_parameters_in_table_witness :
    c10wAnom ∈ (detectAll (initState c10Data)).anomalies ∧
    c10wAnom.parameter ∈ REDLINE_PARAMS ∧
    (detectAll (initState c10Data)).anomalies.all
      (fun x => !(x.parameter == "chamber_pressure_bar")) = true := by
  have hl : (detectAll (initState c10Data)).anomalies = [c10wAnom] := by
    with_unfolding_all decide
  have hm : c10wAnom ∈ (detectAll (initState c10Data)).anomalies := by
    rw [hl]
    exact List.mem_singleton_self _
  refine ⟨hm, claim10_parameters_in_table c10Data c10wAnom hm, ?_⟩
  rw [hl]
  with_unfolding_all decide

/-- C3 (amended): for every redline-violation anomaly, the stored
`percentOver` equals `toFixed2` of `100 × exceedance / |den|`, where `den` is
the violated bound itself whenever that bound is nonzero, and `1` when the
bound is zero (the source divides by `Math.abs(viol.limit || 1)`, and the
number `0` is falsy). -/
theorem claim3_percent_over_amended (data : List DataRecord) (a : Anomaly)
    (h : a ∈ (detectAll (initState data)).anomalies)
    (hty : a.type = "Redline Violation") :
    ∃ exc lm, a.exceedance = some exc ∧ a.redlineLimit = some lm ∧
      a.percentOver = some (toFixed2 ((exc / jsAbs (if lm = 0 then 1 else lm)) * 100)) ∧
      (lm ≠ 0 → a.percentOver = some (toFixed2 ((exc / jsAbs lm) * 100))) := by
  rcases mem_detectAll_cases h with h' | h' | h' | h'
  · exact absurd (h'.1.symm.trans hty) (by decide)
  · exact absurd (h'.1.symm.trans hty) (by decide)
  · obtain ⟨p, lim, i, r, v, dir, exc, lm, _, rfl⟩ := h'
    refine ⟨exc, lm, rfl, rfl, rfl, fun hne => ?_⟩
    simp only [mkRedline, if_neg hne]
  · exact absurd (h'.1.symm.trans hty) (by decide)

set_option maxRecDepth 100000 in
/-- C3 (witness): the zero-limit LOW violation of `c3Data` instantiates the
amended formula with `exceedance = 2`, `limit = 0`, divisor `1`, stored
`percentOver = 200`. -/
theorem claim3_percent_over_amended_witness :
    c3wAnom ∈ (detectAll (initState c3Data)).anomalies ∧
    c3wAnom.type = "Redline Violation" ∧
    (∃ exc lm, c3wAnom.exceedance = some exc ∧ c3wAnom.redlineLimit = some lm ∧
      c3wAnom.percentOver =
        some (toFixed2 ((exc / jsAbs (if lm = 0 then 1 else lm)) * 100))) := by
  have hl : (detectAll (initState c3Data)).anomalies = [c3wAnom] := by
    with_unfolding_all decide
  have hm : c3wAnom ∈ (detectAll (initState c3Data)).anomalies := by
    rw [hl]
    exact List.mem_singleton_self _
  refine ⟨hm, by with_unfolding_all decide, ?_⟩
  obtain ⟨exc, lm, h1, h2, h3, _⟩ :=
    claim3_percent_over_amended c3Data c3wAnom hm (by with_unfolding_all decide)
  exact ⟨exc, lm, h1, h2, h3⟩

/-- C7: if no input record has a numeric, non-negative mission time, then
`detectAll` returns an empty anomaly list (the embedding is total, so no
exception is possible), the events field stays unset, and the summary reports
zero anomalies, zero events and an empty event list. -/
theorem claim7_empty_working_set (data : List DataRecord)
    (h : ∀ r ∈ data, validTime r = false) :
    (detectAll (initState data)).anomalies = [] ∧
    (detectAll (initState data)).events = none ∧
    (getSummary (detectAll (initState data))).totalAnomalies = 0 ∧
    (getSummary (detectAll (initState data))).totalEvents = 0 ∧
    (getSummary (detectAll (initState data))).events = [] := by
  have hw : workingSet data = [] := by
    rw [workingSet, List.filter_eq_nil_iff]
    intro r hr
    rw [h r hr]
    exact Bool.false_ne_true
  have hde : detectAll (initState data) = { initState data with anomalies := [] } := by
    rw [detectAll]
    have : workingSet (initState data).data = [] := hw
    rw [this]
    rfl
  rw [hde]
  exact ⟨rfl, rfl, rfl, rfl, rfl⟩

/-- C7 (witness): a record with a non-numeric mission time and one with a
negative mission time leave the working set empty and the output trivial. -/
theorem claim7_empty_working_set_witness :
    (∀ r ∈ c7Data, validTime r = false) ∧
    (detectAll (initState c7Data)).anomalies = [] ∧
    (getSummary (detectAll (initState c7Data))).totalEvents = 0 :=
  ⟨by with_unfolding_all decide,
   (claim7_empty_working_set c7Data (by with_unfolding_all decide)).1,
   (claim7_empty_working_set c7Data (by with_unfolding_all decide)).2.2.2.1⟩

/-!
## Clustering lemmas and claims C9, C1
-/

/-- The members of a built event are its seed followed by the absorbed
anomalies. -/
theorem mkEvent_anomalies (eid : ℕ) (a : Anomaly) (abs : List Anomaly) :
    (mkEvent eid a abs).anomalies = a :: abs := rfl

/-- The count of a built event is its member count. -/
theorem mkEvent_count (eid : ℕ) (a : Anomaly) (abs : List Anomaly) :
    (mkEvent eid a abs).count = (a :: abs).length := rfl

/-- The start time of a built event is the seed's time. -/
theorem mkEvent_startTime (eid : ℕ) (a : Anomaly) (abs : List Anomaly) :
    (mkEvent eid a abs).startTime = a.missionTime := rfl

/-- The end time of a built event is the running `Math.max` over the
absorbed times, seeded at the seed's time. -/
theorem mkEvent_endTime (eid : ℕ) (a : Anomaly) (abs : List Anomaly) :
    (mkEvent eid a abs).endTime =
      abs.foldl (fun t b => jsMax t b.missionTime) a.missionTime := rfl

/-- A running `Math.max` never drops below its seed. -/
theorem le_foldl_jsMax (l : List Anomaly) :
    ∀ x : ℚ, x ≤ l.foldl (fun t b => jsMax t b.missionTime) x := by
  induction l with
  | nil => intro x; exact le_refl x
  | cons b t ih =>
    intro x
    refine le_trans ?_ (ih (jsMax x b.missionTime))
    rw [jsMax]
    split
    · exact le_of_lt (by assumption)
    · exact le_refl x

/-- One unfolding step of the greedy clustering loop. -/
theorem clusterGo_cons (fuel : ℕ) (a : Anomaly) (rest : List Anomaly) (eid : ℕ) :
    clusterGo (fuel + 1) (a :: rest) eid =
      mkEvent eid a (rest.filter (inWindow a.missionTime)) ::
        clusterGo fuel (rest.filter (fun b => !inWindow a.missionTime b)) (eid + 1) := rfl

/-- The sorted-list component of `_clusterAnomalies`. -/
theorem clusterAnomalies_fst (l : List Anomaly) :
    (clusterAnomalies l).1 = sortByTime l := rfl

/-- The event-list component of `_clusterAnomalies`. -/
theorem clusterAnomalies_snd (l : List Anomaly) :
    (clusterAnomalies l).2 =
      clusterGo (sortByTime l).length (sortByTime l) 1 := rfl

/-- The events built by the greedy loop collectively contain exactly the
input anomalies (with multiplicity), for any sufficient fuel. -/
theorem clusterGo_flatten_perm :
    ∀ (fuel : ℕ) (l : List Anomaly) (eid : ℕ), l.length ≤ fuel →
      ((clusterGo fuel l eid).flatMap (·.anomalies)).Perm l := by
  intro fuel
  induction fuel with
  | zero =>
    intro l eid h
    rw [List.length_eq_zero.mp (Nat.le_zero.mp h)]
    exact List.Perm.refl _
  | succ n ih =>
    intro l eid h
    cases l with
    | nil => exact List.Perm.refl _
    | cons a rest =>
      rw [clusterGo]
      rw [List.flatMap_cons, mkEvent_anomalies]
      have hrem : (rest.filter (fun b => !inWindow a.missionTime b)).length ≤ n :=
        le_trans (List.length_filter_le _ _) (Nat.succ_le_succ_iff.mp h)
      have hIH := ih _ (eid + 1) hrem
      rw [List.cons_append]
      exact List.Perm.cons a ((hIH.append_left _).trans (List.filter_append_perm _ rest))

/-- Every event built by the greedy loop is a `mkEvent` of some seed and
absorbed list. -/
theorem clusterGo_event_mem :
    ∀ (fuel : ℕ) (l : List Anomaly) (eid : ℕ) (e : Event),
      e ∈ clusterGo fuel l eid →
      ∃ i a abs, e = mkEvent i a abs := by
  intro fuel
  induction fuel with
  | zero =>
    intro l eid e h
    cases l with
    | nil => exact absurd h (List.not_mem_nil e)
    | cons a rest => exact absurd h (List.not_mem_nil e)
  | succ n ih =>
    intro l eid e h
    cases l with
    | nil => exact absurd h (List.not_mem_nil e)
    | cons a rest =>
      rw [clusterGo] at h
      rcases List.mem_cons.mp h with rfl | h'
      · exact ⟨eid, a, _, rfl⟩
      · exact ih _ (eid + 1) e h'

/-- The event counts built by the greedy loop sum to the input length. -/
theorem clusterGo_count_sum :
    ∀ (fuel : ℕ) (l : List Anomaly) (eid : ℕ), l.length ≤ fuel →
      ((clusterGo fuel l eid).map (·.count)).sum = l.length := by
  intro fuel
  induction fuel with
  | zero =>
    intro l eid h
    rw [List.length_eq_zero.mp (Nat.le_zero.mp h)]
    rfl
  | succ n ih =>
    intro l eid h
    cases l with
    | nil => rfl
    | cons a rest =>
      rw [clusterGo, List.map_cons, List.sum_cons, mkEvent_count]
      have hrem : (rest.filter (fun b => !inWindow a.missionTime b)).length ≤ n :=
        le_trans (List.length_filter_le _ _) (Nat.succ_le_succ_iff.mp h)
      rw [ih _ (eid + 1) hrem]
      have hparts := (List.filter_append_perm (inWindow a.missionTime) rest).length_eq
      rw [List.length_append] at hparts
      simp only [List.length_cons]
      omega

/-- The events field of a finished `detectAll` run. -/
theorem detectAll_events (s : DState) :
    (detectAll s).events =
      if (workingSet s.data).isEmpty then s.events
      else some (clusterAnomalies (rawAnomalies s.stats (workingSet s.data))).2 := by
  by_cases hw : (workingSet s.data).isEmpty = true
  · rw [detectAll, if_pos hw, if_pos hw]
  · rw [detectAll, if_neg hw, if_neg hw]

/-- C9: after every detection run, the produced events partition the produced
anomaly list — their member lists together are a permutation of the anomaly
list, every event is non-empty with `startTime ≤ endTime` and `count` equal
to its member count, and the event counts sum to the total anomaly count. -/
theorem claim9_events_partition (data : List DataRecord) :
    (((detectAll (initState data)).events.getD []).flatMap (·.anomalies)).Perm
        (detectAll (initState data)).anomalies
    ∧ (∀ e ∈ (detectAll (initState data)).events.getD [],
        e.anomalies ≠ [] ∧ e.startTime ≤ e.endTime ∧ e.count = e.anomalies.length)
    ∧ (((detectAll (initState data)).events.getD []).map (·.count)).sum
        = (detectAll (initState data)).anomalies.length := by
  have hev := detectAll_events (initState data)
  have han := detectAll_anomalies (initState data)
  by_cases hw : (workingSet (initState data).data).isEmpty = true
  · rw [if_pos hw] at hev han
    rw [hev, han]
    exact ⟨List.Perm.refl _, fun e he => absurd he (List.not_mem_nil e), rfl⟩
  · rw [if_neg hw] at hev han
    rw [hev, han, clusterAnomalies_snd]
    refine ⟨clusterGo_flatten_perm _ _ 1 (le_refl _), fun e he => ?_,
      clusterGo_count_sum _ _ 1 (le_refl _)⟩
    obtain ⟨i, a, abs, rfl⟩ := clusterGo_event_mem _ _ 1 e he
    refine ⟨by rw [mkEvent_anomalies]; exact List.cons_ne_nil a abs, ?_, ?_⟩
    · rw [mkEvent_startTime, mkEvent_endTime]
      exact le_foldl_jsMax abs a.missionTime
    · rw [mkEvent_count, mkEvent_anomalies]

set_option maxRecDepth 100000 in
/-- C9 (witness): the two violations of `c9Data`, five seconds apart, form
one event whose two members are exactly the produced anomalies, with
`startTime 0 ≤ endTime 5` and `count = 2`. -/
theorem claim9_events_partition_witness :
    (detectAll (initState c9Data)).events.getD [] = [c9wEvent] ∧
    (c9wEvent.anomalies ≠ [] ∧ c9wEvent.startTime ≤ c9wEvent.endTime ∧
      c9wEvent.count = c9wEvent.anomalies.length) := by
  have hl : (detectAll (initState c9Data)).events.getD [] = [c9wEvent] := by
    with_unfolding_all decide
  refine ⟨hl, (claim9_events_partition c9Data).2.1 c9wEvent ?_⟩
  rw [hl]
  exact List.mem_singleton_self _

/-- C1: clustering on a time-sorted anomaly list is greedy single-linkage
against the cluster's start time with a 10-second window.  For an anomaly
list with mission times `10`, `15` and `25` (and no others), exactly two
events result: the first contains the anomalies at `10` and `15` (end time
extended to `15`), the second contains only the anomaly at `25`. -/
theorem claim1_cluster_window (a b c : Anomaly)
    (ha : a.missionTime = 10) (hb : b.missionTime = 15) (hc : c.missionTime = 25) :
    ∃ e₁ e₂, (clusterAnomalies [a, b, c]).2 = [e₁, e₂] ∧
      e₁.anomalies = [a, b] ∧ e₁.startTime = 10 ∧ e₁.endTime = 15 ∧
      e₂.anomalies = [c] ∧ e₂.startTime = 25 ∧ e₂.endTime = 25 := by
  have hab : byTime a b := by rw [byTime, ha, hb]; norm_num
  have hbc : byTime b c := by rw [byTime, hb, hc]; norm_num
  have hsort : sortByTime [a, b, c] = [a, b, c] := by
    simp [sortByTime, List.insertionSort, List.orderedInsert, hab, hbc]
  have hw1 : inWindow a.missionTime b = true := by
    rw [inWindow, ha, hb]
    norm_num [jsAbs]
  have hw2 : inWindow a.missionTime c = false := by
    rw [inWindow, ha, hc]
    norm_num [jsAbs]
  refine ⟨mkEvent 1 a [b], mkEvent 2 c [], ?_, rfl, ha, ?_, rfl, hc, hc⟩
  · rw [clusterAnomalies_snd, hsort]
    show clusterGo (2 + 1) (a :: [b, c]) 1 = [mkEvent 1 a [b], mkEvent 2 c []]
    rw [clusterGo_cons]
    simp only [List.filter_cons, List.filter_nil, hw1, hw2, Bool.not_true,
      Bool.not_false, if_true, if_false]
    show mkEvent 1 a [b] :: clusterGo (1 + 1) (c :: []) 2
        = [mkEvent 1 a [b], mkEvent 2 c []]
    rw [clusterGo_cons]
    simp only [List.filter_nil]
    rfl
  · rw [mkEvent_endTime]
    show jsMax a.missionTime b.missionTime = 15
    rw [jsMax, ha, hb]
    norm_num

/-- C1 (witness): three concrete anomalies at times `10`, `15` and `25`
cluster into the two stated events. -/
theorem claim1_cluster_window_witness :
    ∃ e₁ e₂,
      (clusterAnomalies [basicAnomaly 10, basicAnomaly 15, basicAnomaly 25]).2
        = [e₁, e₂] ∧
      e₁.anomalies = [basicAnomaly 10, basicAnomaly 15] ∧
      e₁.startTime = 10 ∧ e₁.endTime = 15 ∧
      e₂.anomalies = [basicAnomaly 25] ∧ e₂.startTime = 25 ∧ e₂.endTime = 25 :=
  claim1_cluster_window (basicAnomaly 10) (basicAnomaly 15) (basicAnomaly 25)
    rfl rfl rfl

/-!
## The sustained-deviation deduplication invariant (claim C5)
-/

/-- A freshly built sustained anomaly is tagged and indexed as built. -/
theorem mkSustained_fields (p : String) (i : ℕ) (r : DataRecord) (wm mean devSq : ℚ) :
    (mkSustained p i r wm mean devSq).type = "Sustained Deviation" ∧
    (mkSustained p i r wm mean devSq).parameter = p ∧
    (mkSustained p i r wm mean devSq).index = i := ⟨rfl, rfl, rfl⟩

/-- A redline anomaly is tagged as such. -/
theorem mkRedline_type (p : String) (lim : RLimit) (i : ℕ) (r : DataRecord)
    (v : ℚ) (dir : String) (exc lm : ℚ) :
    (mkRedline p lim i r v dir exc lm).type = "Redline Violation" := rfl

/-- When the duplicate scan comes back empty, every already-recorded
sustained anomaly of the same parameter sits at least 20 indices away. -/
theorem sustainedDup_false {acc : List Anomaly} {p : String} {i : ℕ}
    (h : ¬(sustainedDup acc p i = true)) :
    ∀ x ∈ acc, x.type = "Sustained Deviation" → x.parameter = p →
      20 ≤ ((x.index : ℤ) - (i : ℤ)).natAbs := by
  intro x hx ht hp
  by_contra hlt
  refine h ?_
  rw [sustainedDup, List.any_eq_true]
  refine ⟨x, hx, ?_⟩
  rw [Bool.and_eq_true, Bool.and_eq_true]
  refine ⟨⟨?_, ?_⟩, ?_⟩
  · rw [beq_iff_eq, ht]
  · rw [beq_iff_eq, hp]
  · exact decide_eq_true (Nat.lt_of_not_le hlt)

/-- The separation relation is symmetric. -/
theorem sepR_symm : ∀ {x y : Anomaly}, sepR x y → sepR y x := by
  intro x y h hc
  have h' := h ⟨hc.2.1, hc.1, hc.2.2.symm⟩
  omega

/-- One sustained-deviation step preserves the separation invariant. -/
theorem sustainedStep_pairwise {data : List DataRecord} {p : String} {s : Stat}
    {acc : List Anomaly} {i : ℕ} (h : acc.Pairwise sepR) :
    (sustainedStep data p s acc i).Pairwise sepR := by
  rw [sustainedStep]
  split
  · exact h
  · split
    · split
      · exact h
      · rename_i hdup
        rw [List.pairwise_append]
        refine ⟨h, List.pairwise_singleton _ _, ?_⟩
        intro x hx y hy
        rw [List.mem_singleton] at hy
        subst hy
        intro hc
        have hsep := sustainedDup_false hdup x hx hc.1
          (hc.2.2.trans (mkSustained_fields p i _ _ _ _).2.1)
        have hidx : (mkSustained p i ((data.drop i).headD ⟨none, fun _ => none⟩)
            (wmOf data p i) s.mean (devSqOf data p s i)).index = i := rfl
        rw [hidx]
        exact hsep
    · exact h

/-- `_detectSustainedDeviations` preserves the separation invariant. -/
theorem detectSustainedDeviations_pairwise {st : String → Option Stat}
    {data : List DataRecord} {acc : List Anomaly} (h : acc.Pairwise sepR) :
    (detectSustainedDeviations st data acc).Pairwise sepR := by
  refine foldl_preserve _ ?_ (statEntries st) acc h
  intro acc1 e h1
  split
  · exact h1
  · exact foldl_preserve _ (fun acc2 i h2 => sustainedStep_pairwise h2)
      (windowIndices data) acc1 h1

/-- Lists without sustained-deviation anomalies satisfy the separation
invariant vacuously. -/
theorem pairwise_sepR_of_no_sustained {l : List Anomaly}
    (h : ∀ x ∈ l, x.type ≠ "Sustained Deviation") : l.Pairwise sepR :=
  List.pairwise_of_forall_mem_list (fun a ha _ _ hc => absurd hc.1 (h a ha))

set_option maxRecDepth 1000000 in
/-- C5: a candidate sustained-deviation flag is skipped whenever an
already-recorded anomaly of the same type and parameter has an index within
`W = 20` of the candidate's, so any two sustained-deviation anomalies of the
same parameter in a run's output lie at least 20 indices apart; hence the
overlapping triggering windows of `c5Data` (indices 119, 120 and 121, all
within 20 of each other) produce exactly one Sustained Deviation anomaly,
not two. -/
theorem claim5_sustained_dedup :
    (∀ data : List DataRecord,
        ((detectAll (initState data)).anomalies).Pairwise sepR)
    ∧ ((detectAll (initState c5Data)).anomalies.filter
          (fun a => a.type == "Sustained Deviation")).map
        (fun a => (a.parameter, a.index)) = [("velocity_ms", 119)] := by
  constructor
  · intro data
    rw [detectAll_anomalies]
    split
    · exact List.Pairwise.nil
    · have hbase : ∀ x ∈ (detectZScoreAnomalies
            (computeStats (initState data).stats (workingSet (initState data).data))
            (workingSet (initState data).data)
          ++ detectRateOfChange
            (computeStats (initState data).stats (workingSet (initState data).data))
            (workingSet (initState data).data))
          ++ detectRedlineViolations (workingSet (initState data).data),
          x.type ≠ "Sustained Deviation" := by
        intro x hx
        rcases List.mem_append.mp hx with hx' | hx'
        · rcases List.mem_append.mp hx' with h3 | h3
          · rw [(mem_detectZScoreAnomalies h3).1]
            decide
          · rw [(mem_detectRateOfChange h3).1]
            decide
        · obtain ⟨p, lim, i, r, v, dir, exc, lm, _, rfl⟩ :=
            mem_detectRedlineViolations hx'
          rw [mkRedline_type]
          decide
      have h4 : (rawAnomalies (initState data).stats
          (workingSet (initState data).data)).Pairwise sepR :=
        detectSustainedDeviations_pairwise (pairwise_sepR_of_no_sustained hbase)
      show (List.insertionSort byTime (rawAnomalies (initState data).stats
        (workingSet (initState data).data))).Pairwise sepR
      exact (List.Perm.pairwise_iff sepR_symm
        (List.perm_insertionSort byTime _)).mpr h4
  · with_unfolding_all decide

/-- C5 (witness): the concrete run on `c5Data` satisfies the separation
invariant. -/
theorem claim5_sustained_dedup_witness :
    ((detectAll (initState c5Data)).anomalies).Pairwise sepR :=
  claim5_sustained_dedup.1 c5Data

/-!
## Idempotence of `detectAll` (claim C6)
-/

/-- Re-running `_computeStats` on the same data over the dictionary produced
by a first run writes back exactly the same entries: a parameter is rewritten
with the identical baseline when it has valid values, and was not written by
either run otherwise. -/
theorem computeStats_stable (d : List DataRecord) :
    computeStats (computeStats (fun _ => none) d) d
      = computeStats (fun _ => none) d := by
  funext p
  by_cases hc : p ∈ REDLINE_PARAMS ∧ ¬((paramValues d p).isEmpty = true)
  · simp only [computeStats_apply, if_pos hc]
  · simp only [computeStats_apply, if_neg hc]

/-- The merged anomaly list of a second run over the first run's stats
dictionary equals that of the first run. -/
theorem rawAnomalies_stable (w : List DataRecord) :
    rawAnomalies (computeStats (fun _ => none) w) w
      = rawAnomalies (fun _ => none) w := by
  rw [rawAnomalies, rawAnomalies, computeStats_stable]

/-- C6: detection is idempotent — calling `detectAll` a second time on the
same instance (same data) yields the same anomaly list, the same event list,
and an identical summary, because the anomaly and event lists are rebuilt
from scratch and the stats dictionary is rewritten with identical entries. -/
theorem claim6_idempotent (data : List DataRecord) :
    (detectAll (detectAll (initState data))).anomalies
        = (detectAll (initState data)).anomalies
    ∧ (detectAll (detectAll (initState data))).events
        = (detectAll (initState data)).events
    ∧ getSummary (detectAll (detectAll (initState data)))
        = getSummary (detectAll (initState data)) := by
  by_cases hw : (workingSet data).isEmpty = true
  · have hw1 : (workingSet (initState data).data).isEmpty = true := hw
    have h1 : detectAll (initState data) = { initState data with anomalies := [] } := by
      rw [detectAll, if_pos hw1]
    rw [h1]
    have hw2 : (workingSet ({ initState data with
        anomalies := ([] : List Anomaly) }).data).isEmpty = true := hw
    have h2 : detectAll { initState data with anomalies := ([] : List Anomaly) }
        = { initState data with anomalies := [] } := by
      rw [detectAll, if_pos hw2]
    rw [h2]
    exact ⟨rfl, rfl, rfl⟩
  · have hw1 : ¬((workingSet (initState data).data).isEmpty = true) := hw
    have h1 : detectAll (initState data) = run1 data := by
      rw [detectAll, if_neg hw1]
      rfl
    have hw2 : ¬((workingSet (run1 data).data).isEmpty = true) := hw
    have h2 : detectAll (run1 data) = run1 data := by
      rw [detectAll, if_neg hw2]
      show ({ data := data
              anomalies := (clusterAnomalies (rawAnomalies
                (computeStats (fun _ => none) (workingSet data)) (workingSet data))).1
              stats := computeStats (computeStats (fun _ => none) (workingSet data))
                (workingSet data)
              events := some (clusterAnomalies (rawAnomalies
                (computeStats (fun _ => none) (workingSet data)) (workingSet data))).2 } :
          DState) = run1 data
      rw [computeStats_stable, rawAnomalies_stable]
      rfl
    rw [h1, h2]
    exact ⟨rfl, rfl, rfl⟩

/-!
## The statistics baseline over JS numbers (claim C8)
-/

/-- IEEE addition folded over finite values is exact rational addition. -/
theorem foldl_jnAdd_fin (qs : List ℚ) :
    ∀ acc : ℚ, (qs.map JNum.fin).foldl jnAdd (JNum.fin acc)
      = JNum.fin (qs.foldl (· + ·) acc) := by
  induction qs with
  | nil => intro acc; rfl
  | cons q t ih =>
    intro acc
    rw [List.map_cons, List.foldl_cons, List.foldl_cons]
    exact ih (acc + q)

/-- The squared-deviation fold over finite values is exact. -/
theorem foldl_jnVar_fin (μ : ℚ) (qs : List ℚ) :
    ∀ acc : ℚ,
      (qs.map JNum.fin).foldl (fun a v => jnAdd a (jnSq (jnSub v (JNum.fin μ))))
          (JNum.fin acc)
        = JNum.fin (qs.foldl (fun a x => a + sq (x - μ)) acc) := by
  induction qs with
  | nil => intro acc; rfl
  | cons q t ih =>
    intro acc
    rw [List.map_cons, List.foldl_cons, List.foldl_cons]
    exact ih (acc + sq (q - μ))

/-- `Math.min` folded over finite values is the exact rational minimum. -/
theorem foldl_jnMin_fin (qs : List ℚ) :
    ∀ x : ℚ, (qs.map JNum.fin).foldl jnMin (JNum.fin x)
      = JNum.fin (qs.foldl min x) := by
  induction qs with
  | nil => intro x; rfl
  | cons q t ih =>
    intro x
    rw [List.map_cons, List.foldl_cons, List.foldl_cons]
    exact ih (min x q)

/-- `Math.max` folded over finite values is the exact rational maximum. -/
theorem foldl_jnMax_fin (qs : List ℚ) :
    ∀ x : ℚ, (qs.map JNum.fin).foldl jnMax (JNum.fin x)
      = JNum.fin (qs.foldl max x) := by
  induction qs with
  | nil => intro x; rfl
  | cons q t ih =>
    intro x
    rw [List.map_cons, List.foldl_cons, List.foldl_cons]
    exact ih (max x q)

/-- A left fold of addition is the seed plus the sum. -/
theorem foldl_add_eq (qs : List ℚ) : ∀ a : ℚ, qs.foldl (· + ·) a = a + qs.sum := by
  induction qs with
  | nil => intro a; rw [List.foldl_nil, List.sum_nil, add_zero]
  | cons q t ih =>
    intro a
    rw [List.foldl_cons, ih (a + q), List.sum_cons, add_assoc]

/-- A left fold of summand `f` is the seed plus the sum of the mapped list. -/
theorem foldl_addf_eq (f : ℚ → ℚ) (qs : List ℚ) :
    ∀ a : ℚ, qs.foldl (fun a x => a + f x) a = a + (qs.map f).sum := by
  induction qs with
  | nil => intro a; rw [List.foldl_nil, List.map_nil, List.sum_nil, add_zero]
  | cons q t ih =>
    intro a
    rw [List.foldl_cons, ih (a + f q), List.map_cons, List.sum_cons, add_assoc]

/-- On a nonempty list of finite values, the `JNum` baseline entry agrees
exactly with the specification's formulas: the mean is `Σx / n`, the variance
is the population variance `Σ(x - mean)² / n`, and min/max are the exact
extrema. -/
theorem statEOfValues_fin (qs : List ℚ) (h : qs ≠ []) :
    statEOfValues (qs.map JNum.fin) =
      { mean := JNum.fin (specMean qs), variance := JNum.fin (specPopVariance qs),
        min := JNum.fin (listMin qs), max := JNum.fin (listMax qs) } := by
  have hsum : jnSumOf (qs.map JNum.fin) = JNum.fin qs.sum := by
    rw [jnSumOf, foldl_jnAdd_fin, foldl_add_eq qs 0, zero_add]
  have hmean : jnMeanOf (qs.map JNum.fin) = JNum.fin (specMean qs) := by
    rw [jnMeanOf, hsum, List.length_map]
    rfl
  have hvar : jnVarOf (qs.map JNum.fin) = JNum.fin (specPopVariance qs) := by
    rw [jnVarOf, hmean, foldl_jnVar_fin, foldl_addf_eq _ qs 0, zero_add,
      List.length_map]
    rfl
  have hmin : jnListMin (qs.map JNum.fin) = JNum.fin (listMin qs) := by
    cases qs with
    | nil => exact absurd rfl h
    | cons q t =>
      rw [List.map_cons]
      show (t.map JNum.fin).foldl jnMin (JNum.fin q) = _
      rw [foldl_jnMin_fin]
      rfl
  have hmax : jnListMax (qs.map JNum.fin) = JNum.fin (listMax qs) := by
    cases qs with
    | nil => exact absurd rfl h
    | cons q t =>
      rw [List.map_cons]
      show (t.map JNum.fin).foldl jnMax (JNum.fin q) = _
      rw [foldl_jnMax_fin]
      rfl
  rw [statEOfValues, hmean, hvar, hmin, hmax]

/-- C8 (counterexample): the source filter
`typeof v === 'number' && !isNaN(v)` does not exclude infinities.  On a
record whose only monitored value is `Infinity`, the claim demands zero valid
samples and hence an absent baseline entry; the source instead computes an
entry with `mean = Infinity`, `std = NaN` and `min = max = Infinity`. -/
theorem claim8_baseline_counterexample :
    computeStatsE emptyStatsE c8InfData "velocity_ms" =
      some { mean := JNum.inf, variance := JNum.nan,
             min := JNum.inf, max := JNum.inf }
    ∧ ¬(computeStatsE emptyStatsE c8InfData "velocity_ms" = none) := by
  with_unfolding_all decide

/-- C8 (amended): for every monitored parameter, the baseline entry exists
exactly when the parameter has at least one value that is numeric and not NaN
(infinite values pass the filter and are not excluded); when all such values
are finite, the entry carries the exact mean `Σx / n` and the population
variance `Σ(x - mean)² / n` (no Bessel correction) together with the exact
min and max, and a parameter with zero such values is simply absent from the
baseline mapping, with no error raised (the embedding is total). -/
theorem claim8_baseline_amended (data : List RecordE) (p : String) (qs : List ℚ)
    (hp : p ∈ REDLINE_PARAMS)
    (hvals : numericVals data p = qs.map JNum.fin) :
    (computeStatsE emptyStatsE data p = none ↔ qs = []) ∧
    (qs ≠ [] → computeStatsE emptyStatsE data p =
      some { mean := JNum.fin (specMean qs),
             variance := JNum.fin (specPopVariance qs),
             min := JNum.fin (listMin qs), max := JNum.fin (listMax qs) }) := by
  by_cases hq : qs = []
  · subst hq
    have hcond : ¬(p ∈ REDLINE_PARAMS ∧ ¬((numericVals data p).isEmpty = true)) := by
      rintro ⟨-, hne⟩
      rw [hvals] at hne
      exact hne rfl
    rw [computeStatsE_apply, if_neg hcond]
    exact ⟨by simp [emptyStatsE], fun hne => absurd rfl hne⟩
  · have hne : ¬((numericVals data p).isEmpty = true) := by
      rw [hvals]
      cases qs with
      | nil => exact absurd rfl hq
      | cons q t => simp
    rw [computeStatsE_apply, if_pos ⟨hp, hne⟩, hvals, statEOfValues_fin qs hq]
    refine ⟨⟨fun hcontra => absurd hcontra (by simp), fun hcontra => absurd hcontra hq⟩,
      fun _ => rfl⟩

/-- C8 (witness): two finite samples `1` and `3` give mean `2`, population
variance `1`, min `1`, max `3`; the same parameter is absent when it has no
numeric non-NaN values. -/
theorem claim8_baseline_amended_witness :
    ("velocity_ms" ∈ REDLINE_PARAMS) ∧
    (numericVals c8FinData "velocity_ms" = [(1 : ℚ), 3].map JNum.fin) ∧
    computeStatsE emptyStatsE c8FinData "velocity_ms" =
      some { mean := JNum.fin (specMean [1, 3]),
             variance := JNum.fin (specPopVariance [1, 3]),
             min := JNum.fin (listMin [1, 3]), max := JNum.fin (listMax [1, 3]) } :=
  ⟨by with_unfolding_all decide, by with_unfolding_all decide,
   (claim8_baseline_amended c8FinData "velocity_ms" [1, 3]
      (by with_unfolding_all decide) (by with_unfolding_all decide)).2
     (by with_unfolding_all decide)⟩

end RocketAnomaly
